import Mathlib

/-!
Shallow embedding of the log ingestion core of `src/log_analyzer.py`
(classes `LogEntry`, `LogParser`, `LogAnalyzer`), together with theorems
checking the specification's claims about it.

Python strings are modelled as Lean `String` / `List Char`; `datetime`
objects as the `DateTime` structure below (naive comparison, explicit
optional UTC-offset field); `None`-returning functions as `Option`;
raised exceptions as `Except`; the analyzer's mutable state as explicit
state passing. The regular expressions of `LogParser.patterns` are
deterministic (every greedy sub-pattern is a character class that cannot
cross its own terminator), so they are embedded as sequential parsers
over `List Char`.
-/

namespace LogFileAnalyzer

/-! ### Character and string helpers (Python `str` operations, ASCII range) -/

/-- Python whitespace (`str.strip` default set, `\s` of `re`): space, tab,
newline, carriage return, vertical tab, form feed. -/
def pyIsSpace (c : Char) : Bool :=
  c = ' ' || c = '\t' || c = '\n' || c = '\r' || c = '\x0b' || c = '\x0c'

/-- `str.strip()`: drop leading and trailing whitespace. -/
def stripChars (cs : List Char) : List Char :=
  ((cs.dropWhile pyIsSpace).reverse.dropWhile pyIsSpace).reverse

/-- `str.upper()` (ASCII). -/
def sUpper (s : String) : String := ⟨s.data.map Char.toUpper⟩

/-- `str.lower()` (ASCII). -/
def sLower (s : String) : String := ⟨s.data.map Char.toLower⟩

/-- `\d` of `re`, and the digits accepted by `int()` on the captured groups. -/
def isDigitC (c : Char) : Bool := c.isDigit

/-- `\w` of `re` (ASCII model): letters, digits, underscore. -/
def isWordC (c : Char) : Bool := c.isAlphanum || c = '_'

/-- `\S` of `re`: any non-whitespace character. -/
def isNonSpaceC (c : Char) : Bool := !(pyIsSpace c)

/-- Numeric value of a digit character. -/
def digitVal (c : Char) : Nat := c.toNat - '0'.toNat

/-- `int()` on a string of decimal digits. -/
def natOfDigits (cs : List Char) : Nat := cs.foldl (fun a c => 10 * a + digitVal c) 0

/-- Substring test on character lists (`in` / `re.search` of an escaped
literal): `pat` occurs contiguously inside `hay`. -/
def containsSub : List Char → List Char → Bool
  | [], pat => pat.isEmpty
  | c :: rest, pat => pat.isPrefixOf (c :: rest) || containsSub rest pat

/-! ### `datetime.datetime` model -/

/-- A `datetime.datetime` value: calendar components plus an optional UTC
offset in minutes (`None` = naive). -/
structure DateTime where
  year : Nat
  month : Nat
  day : Nat
  hour : Nat
  minute : Nat
  second : Nat
  micro : Nat
  tzOffsetMinutes : Option Int
deriving Repr, DecidableEq

/-- Naive `datetime` comparison: lexicographic on the components (the
analyzer's filter inputs are naive datetimes; Python would raise on
aware-vs-naive comparison, which the spec puts outside the core's
contract). -/
def dtLe (a b : DateTime) : Bool :=
  if a.year ≠ b.year then a.year < b.year
  else if a.month ≠ b.month then a.month < b.month
  else if a.day ≠ b.day then a.day < b.day
  else if a.hour ≠ b.hour then a.hour < b.hour
  else if a.minute ≠ b.minute then a.minute < b.minute
  else if a.second ≠ b.second then a.second < b.second
  else a.micro ≤ b.micro

/-! ### `LogParser.parse_timestamp` -/

/-- One directive of a `strptime` format string. -/
inductive FmtTok where
  | lit (c : Char)
  | Y | m | d | H | M | S | f | b | z
deriving Repr, DecidableEq

/-- The format `'%Y-%m-%d %H:%M:%S'`. -/
def fmtDateTime : List FmtTok :=
  [.Y, .lit '-', .m, .lit '-', .d, .lit ' ', .H, .lit ':', .M, .lit ':', .S]

/-- The format `'%Y-%m-%d %H:%M:%S.%f'`. -/
def fmtDateTimeDotF : List FmtTok := fmtDateTime ++ [.lit '.', .f]

/-- The format `'%Y-%m-%d %H:%M:%S,%f'`. -/
def fmtDateTimeCommaF : List FmtTok := fmtDateTime ++ [.lit ',', .f]

/-- The format `'%d/%b/%Y:%H:%M:%S %z'`. -/
def fmtApacheTs : List FmtTok :=
  [.d, .lit '/', .b, .lit '/', .Y, .lit ':', .H, .lit ':', .M, .lit ':', .S, .lit ' ', .z]

/-- The format `'%b %d %H:%M:%S'`. -/
def fmtSyslogTs : List FmtTok :=
  [.b, .lit ' ', .d, .lit ' ', .H, .lit ':', .M, .lit ':', .S]

/-- The format `'%Y-%m-%dT%H:%M:%S'`. -/
def fmtIsoT : List FmtTok :=
  [.Y, .lit '-', .m, .lit '-', .d, .lit 'T', .H, .lit ':', .M, .lit ':', .S]

/-- The format `'%Y-%m-%dT%H:%M:%S.%fZ'`. -/
def fmtIsoTFZ : List FmtTok := fmtIsoT ++ [.lit '.', .f, .lit 'Z']

/-- `LogParser.timestamp_formats`, in source order. -/
def timestamp_formats : List (List FmtTok) :=
  [fmtDateTime, fmtDateTimeDotF, fmtDateTimeCommaF, fmtApacheTs, fmtSyslogTs,
   fmtIsoT, fmtIsoTFZ]

/-- Accumulator for `strptime`, with CPython `_strptime`'s defaults
(year 1900, month 1, day 1, midnight, naive). -/
structure StrpAcc where
  year : Nat
  month : Nat
  day : Nat
  hour : Nat
  minute : Nat
  second : Nat
  micro : Nat
  tz : Option Int
deriving Repr, DecidableEq

/-- The default accumulator. -/
def strpDefault : StrpAcc := ⟨1900, 1, 1, 0, 0, 0, 0, none⟩

/-- Exactly `n` digits (the `%Y` directive is `\d\d\d\d`). -/
def exactDigits (n : Nat) (cs : List Char) : Option (Nat × List Char) :=
  let t := cs.take n
  if t.length = n ∧ t.all isDigitC then some (natOfDigits t, cs.drop n) else none

/-- One or two digits, as CPython `_strptime` compiles `%m`, `%d`, `%H`,
`%M`, `%S`: two digits are consumed when their value lies in
`[lo2, hi2]` (the two-digit alternatives of the directive's regex),
otherwise a single digit with `oneOk` is consumed. -/
def twoOrOneDigits (lo2 hi2 : Nat) (oneOk : Nat → Bool) :
    List Char → Option (Nat × List Char)
  | c1 :: c2 :: rest =>
    if isDigitC c1 ∧ isDigitC c2 ∧ lo2 ≤ 10 * digitVal c1 + digitVal c2
        ∧ 10 * digitVal c1 + digitVal c2 ≤ hi2 then
      some (10 * digitVal c1 + digitVal c2, rest)
    else if isDigitC c1 ∧ oneOk (digitVal c1) then
      some (digitVal c1, c2 :: rest)
    else none
  | [c1] => if isDigitC c1 ∧ oneOk (digitVal c1) then some (digitVal c1, []) else none
  | [] => none

/-- `%f`: one to six digits, greedily, scaled to microseconds (CPython pads
the captured digits with zeros on the right). -/
def matchFrac (cs : List Char) : Option (Nat × List Char) :=
  let ds := (cs.takeWhile isDigitC).take 6
  if ds.isEmpty then none
  else some (natOfDigits ds * 10 ^ (6 - ds.length), cs.drop ds.length)

/-- The abbreviated month names of `%b` (C locale), lowercased. -/
def monthAbbrs : List (List Char × Nat) :=
  [("jan".data, 1), ("feb".data, 2), ("mar".data, 3), ("apr".data, 4),
   ("may".data, 5), ("jun".data, 6), ("jul".data, 7), ("aug".data, 8),
   ("sep".data, 9), ("oct".data, 10), ("nov".data, 11), ("dec".data, 12)]

/-- `%b`: a three-letter month abbreviation, case-insensitively. -/
def matchMonthName : List Char → Option (Nat × List Char)
  | c1 :: c2 :: c3 :: rest =>
    match monthAbbrs.find? (fun p => p.1 = [c1.toLower, c2.toLower, c3.toLower]) with
    | some p => some (p.2, rest)
    | none => none
  | _ => none

/-- Two digits whose first is 0–5 (the minute part of a `%z` offset). -/
def tzMinutePair : List Char → Option (Nat × List Char)
  | c1 :: c2 :: rest =>
    if isDigitC c1 ∧ digitVal c1 ≤ 5 ∧ isDigitC c2 then
      some (10 * digitVal c1 + digitVal c2, rest)
    else none
  | _ => none

/-- The optional seconds-and-fraction tail of a `%z` offset
(`(:?[0-5]\d(\.\d{1,6})?)?`): consumed when present, ignored in the
offset value as the repository's inputs never carry it. -/
def consumeTzSeconds (cs : List Char) : List Char :=
  let afterColon := match cs with
    | ':' :: r => r
    | r => r
  match tzMinutePair afterColon with
  | some (_, rest2) =>
    match rest2 with
    | '.' :: c :: r =>
      if isDigitC c then
        let ds := ((c :: r).takeWhile isDigitC).take 6
        (c :: r).drop ds.length
      else '.' :: c :: r
    | r => r
  | none => cs

/-- `%z`: a case-sensitive `Z`, or a sign, two hour digits, an optional
colon and two minute digits; the hour must stay below 24 (CPython builds
a `timezone` object, which rejects offsets of a day or more). Returns the
offset in minutes. -/
def matchTz : List Char → Option (Int × List Char)
  | 'Z' :: rest => some (0, rest)
  | sign :: c1 :: c2 :: rest =>
    if (sign = '+' ∨ sign = '-') ∧ isDigitC c1 ∧ isDigitC c2 then
      let hh := 10 * digitVal c1 + digitVal c2
      let afterColon := match rest with
        | ':' :: r => r
        | r => r
      match tzMinutePair afterColon with
      | some (mm, rest2) =>
        if hh < 24 then
          let mins : Int := (hh * 60 + mm : Nat)
          some (if sign = '-' then -mins else mins, consumeTzSeconds rest2)
        else none
      | none => none
    else none
  | _ => none

/-- Run a format over the input, CPython `_strptime` style: a whitespace
character in the format matches one or more whitespace characters, any
other literal matches case-insensitively (the compiled regex carries
`IGNORECASE`), and the whole input must be consumed (`unconverted data
remains` otherwise). -/
def runFmt : List FmtTok → List Char → StrpAcc → Option StrpAcc
  | [], cs, acc => if cs.isEmpty then some acc else none
  | .lit c :: rest, cs, acc =>
    if pyIsSpace c then
      match cs with
      | c0 :: cs0 =>
        if pyIsSpace c0 then runFmt rest (cs0.dropWhile pyIsSpace) acc else none
      | [] => none
    else
      match cs with
      | c0 :: cs0 => if c0.toLower = c.toLower then runFmt rest cs0 acc else none
      | [] => none
  | .Y :: rest, cs, acc =>
    match exactDigits 4 cs with
    | some (v, cs0) => runFmt rest cs0 { acc with year := v }
    | none => none
  | .m :: rest, cs, acc =>
    match twoOrOneDigits 1 12 (fun v => 1 ≤ v) cs with
    | some (v, cs0) => runFmt rest cs0 { acc with month := v }
    | none => none
  | .d :: rest, cs, acc =>
    match twoOrOneDigits 1 31 (fun v => 1 ≤ v) cs with
    | some (v, cs0) => runFmt rest cs0 { acc with day := v }
    | none => none
  | .H :: rest, cs, acc =>
    match twoOrOneDigits 0 23 (fun _ => true) cs with
    | some (v, cs0) => runFmt rest cs0 { acc with hour := v }
    | none => none
  | .M :: rest, cs, acc =>
    match twoOrOneDigits 0 59 (fun _ => true) cs with
    | some (v, cs0) => runFmt rest cs0 { acc with minute := v }
    | none => none
  | .S :: rest, cs, acc =>
    match twoOrOneDigits 0 61 (fun _ => true) cs with
    | some (v, cs0) => runFmt rest cs0 { acc with second := v }
    | none => none
  | .f :: rest, cs, acc =>
    match matchFrac cs with
    | some (v, cs0) => runFmt rest cs0 { acc with micro := v }
    | none => none
  | .b :: rest, cs, acc =>
    match matchMonthName cs with
    | some (v, cs0) => runFmt rest cs0 { acc with month := v }
    | none => none
  | .z :: rest, cs, acc =>
    match matchTz cs with
    | some (v, cs0) => runFmt rest cs0 { acc with tz := some v }
    | none => none

/-- Days in a month, Gregorian leap rule (CPython `datetime`). -/
def daysInMonth (y m : Nat) : Nat :=
  if m = 2 then
    if y % 4 = 0 ∧ (y % 100 ≠ 0 ∨ y % 400 = 0) then 29 else 28
  else if m = 4 ∨ m = 6 ∨ m = 9 ∨ m = 11 then 30 else 31

/-- `datetime.datetime.strptime(data, fmt)` as an `Option`: a full regex
match followed by the `datetime` constructor's range validation (the
directives' regexes already bound month, hour and minute; the
constructor additionally rejects year 0, impossible days and the leap
seconds the `%S` regex tolerates). -/
def strptime (fmt : List FmtTok) (cs : List Char) : Option DateTime :=
  match runFmt fmt cs strpDefault with
  | some a =>
    if 1 ≤ a.year ∧ 1 ≤ a.day ∧ a.day ≤ daysInMonth a.year a.month ∧ a.second ≤ 59 then
      some ⟨a.year, a.month, a.day, a.hour, a.minute, a.second, a.micro, a.tz⟩
    else none
  | none => none

/-- `str.replace('Z', '+00:00')`. -/
def replaceZ : List Char → List Char
  | [] => []
  | 'Z' :: r => '+' :: '0' :: '0' :: ':' :: '0' :: '0' :: replaceZ r
  | c :: r => c :: replaceZ r

/-- The time-of-day, fraction and offset tail of `fromisoformat`, after the
separator character: `HH[:MM[:SS]]`, an optional `.`/`,` fraction, then an
optional offset (`Z`, `±HH`, `±HH:MM`, `±HHMM`); nothing may remain. -/
def pyFromIsoTime (cs : List Char) : Option (Nat × Nat × Nat × Nat × Option Int) :=
  match exactDigits 2 cs with
  | none => none
  | some (h, r1) =>
    let (mi, r2) := match r1 with
      | ':' :: r => match exactDigits 2 r with
        | some (v, r0) => (some v, r0)
        | none => (none, ':' :: r)
      | r => (none, r)
    match mi with
    | none => if r1.isEmpty then some (h, 0, 0, 0, none) else none
    | some mv =>
      let (sv, r3) := match r2 with
        | ':' :: r => match exactDigits 2 r with
          | some (v, r0) => (some v, r0)
          | none => (none, ':' :: r)
        | r => (none, r)
      let s := sv.getD 0
      if sv.isNone ∧ ¬ r2.isEmpty then none
      else
        let (frac, r4) := match r3 with
          | c :: c2 :: r =>
            if (c = '.' ∨ c = ',') ∧ isDigitC c2 then
              let ds := ((c2 :: r).takeWhile isDigitC)
              let used := ds.take 6
              (natOfDigits used * 10 ^ (6 - used.length), (c2 :: r).drop ds.length)
            else (0, c :: c2 :: r)
          | r => (0, r)
        match r4 with
        | [] => some (h, mv, s, frac, none)
        | 'Z' :: [] => some (h, mv, s, frac, some 0)
        | sg :: r5 =>
          if sg = '+' ∨ sg = '-' then
            match exactDigits 2 r5 with
            | some (oh, r6) =>
              let (om, r7) := match r6 with
                | ':' :: r => match exactDigits 2 r with
                  | some (v, r0) => (some v, r0)
                  | none => (none, ':' :: r)
                | r => match exactDigits 2 r with
                  | some (v, r0) => (some v, r0)
                  | none => (none, r)
              if r7.isEmpty ∧ oh ≤ 23 ∧ om.getD 0 ≤ 59 then
                let mins : Int := (oh * 60 + om.getD 0 : Nat)
                some (h, mv, s, frac, some (if sg = '-' then -mins else mins))
              else none
            | none => none
          else none

/-- `datetime.datetime.fromisoformat` (CPython 3.11+), modelled on the
dashed calendar-date forms the analyzer can feed it: `YYYY-MM-DD`,
optionally followed by any single separator character and a time as in
`pyFromIsoTime`. Component ranges are validated as the constructor
does. -/
def pyFromIso (cs : List Char) : Option DateTime :=
  match exactDigits 4 cs with
  | none => none
  | some (y, r1) =>
    match r1 with
    | '-' :: r2 =>
      match exactDigits 2 r2 with
      | none => none
      | some (mo, r3) =>
        match r3 with
        | '-' :: r4 =>
          match exactDigits 2 r4 with
          | none => none
          | some (d, r5) =>
            let core : Option (Nat × Nat × Nat × Nat × Option Int) :=
              match r5 with
              | [] => some (0, 0, 0, 0, none)
              | _ :: r6 => pyFromIsoTime r6
            match core with
            | some (h, mi, s, frac, tz) =>
              if 1 ≤ y ∧ 1 ≤ mo ∧ mo ≤ 12 ∧ 1 ≤ d ∧ d ≤ daysInMonth y mo
                  ∧ h ≤ 23 ∧ mi ≤ 59 ∧ s ≤ 59 then
                some ⟨y, mo, d, h, mi, s, frac, tz⟩
              else none
            | none => none
        | _ => none
    | _ => none

/-- Does a format string end in `'%z'`? (`fmt.endswith('%z')`). -/
def endsWithZDir (fmt : List FmtTok) : Bool :=
  match fmt.getLast? with
  | some .z => true
  | _ => false

/-- The loop of `parse_timestamp`: each format is tried in order; before a
format ending in `%z`, when the input holds neither `'+'` nor `'Z'`, the
suffix `' +0000'` is appended to `timestamp_str` — and, as in the source,
that reassignment persists for all later formats and the final
`fromisoformat` fallback. -/
def tryFormats : List (List FmtTok) → List Char → Option DateTime
  | [], cs => pyFromIso (replaceZ cs)
  | fmt :: rest, cs =>
    let cs := if endsWithZDir fmt ∧ ¬ cs.contains '+' ∧ ¬ cs.contains 'Z' then
      cs ++ [' ', '+', '0', '0', '0', '0'] else cs
    match strptime fmt cs with
    | some dt => some dt
    | none => tryFormats rest cs

/-- `LogParser.parse_timestamp`: strip the input, run the format list, fall
back to `fromisoformat` with `'Z'` replaced by `'+00:00'`, and report
`None` when everything fails. -/
def parse_timestamp (s : String) : Option DateTime :=
  tryFormats timestamp_formats (stripChars s.data)

/-! ### `LogEntry` -/

/-- One parsed record (`class LogEntry`). -/
structure LogEntry where
  timestamp : DateTime
  level : String
  message : String
  source : String
  raw_line : String
  line_number : Nat
deriving Repr, DecidableEq

/-- `LogEntry.__init__`: the level is uppercased on construction. -/
def mkLogEntry (timestamp : DateTime) (level message source raw_line : String)
    (line_number : Nat) : LogEntry :=
  ⟨timestamp, sUpper level, message, source, raw_line, line_number⟩

/-! ### The four `LogParser.patterns`

Each is `re.match`ed (anchored at the start, free at the end). Every
greedy piece is a character class excluding its own terminator, so
matching is deterministic and embeds as a sequential parser; the one
`\d{1,2}` and the optional groups are resolved below exactly as the
backtracking engine would. -/

/-- One or more characters of a class (`\d+`, `\w+`, `[^x]+`). -/
def takeClass1 (p : Char → Bool) : List Char → Option (List Char × List Char)
  | [] => none
  | c :: rest =>
    if p c then
      let t := rest.takeWhile p
      some (c :: t, rest.drop t.length)
    else none

/-- Exactly `n` characters of a class (`\d{4}`, `\w{3}`). -/
def takeClassN (n : Nat) (p : Char → Bool) (cs : List Char) :
    Option (List Char × List Char) :=
  let t := cs.take n
  if t.length = n ∧ t.all p then some (t, cs.drop n) else none

/-- A single literal character (patterns are compiled case-sensitively). -/
def litChar (c : Char) : List Char → Option (List Char)
  | c0 :: rest => if c0 = c then some rest else none
  | [] => none

/-- A literal character sequence. -/
def litStr : List Char → List Char → Option (List Char)
  | [], cs => some cs
  | c :: pat, cs =>
    match litChar c cs with
    | some r => litStr pat r
    | none => none

/-- The named groups of the `apache_access` pattern. -/
structure ApacheGroups where
  ip : List Char
  timestamp : List Char
  method : List Char
  url : List Char
  protocol : List Char
  status : List Char
  size : List Char
deriving Repr, DecidableEq

/-- The `apache_access` pattern:
`(?P<ip>\d+\.\d+\.\d+\.\d+) - - \[(?P<timestamp>[^\]]+)\]
"(?P<method>\w+) (?P<url>[^\s]+) (?P<protocol>[^"]+)"
(?P<status>\d+) (?P<size>\d+|-)`. -/
def apacheMatch (cs : List Char) : Option ApacheGroups :=
  match takeClass1 isDigitC cs with
  | none => none
  | some (d1, r) =>
  match litChar '.' r with
  | none => none
  | some r =>
  match takeClass1 isDigitC r with
  | none => none
  | some (d2, r) =>
  match litChar '.' r with
  | none => none
  | some r =>
  match takeClass1 isDigitC r with
  | none => none
  | some (d3, r) =>
  match litChar '.' r with
  | none => none
  | some r =>
  match takeClass1 isDigitC r with
  | none => none
  | some (d4, r) =>
  match litStr " - - [".data r with
  | none => none
  | some r =>
  match takeClass1 (fun c => c ≠ ']') r with
  | none => none
  | some (ts, r) =>
  match litStr "] \"".data r with
  | none => none
  | some r =>
  match takeClass1 isWordC r with
  | none => none
  | some (mth, r) =>
  match litChar ' ' r with
  | none => none
  | some r =>
  match takeClass1 isNonSpaceC r with
  | none => none
  | some (url, r) =>
  match litChar ' ' r with
  | none => none
  | some r =>
  match takeClass1 (fun c => c ≠ '"') r with
  | none => none
  | some (proto, r) =>
  match litStr "\" ".data r with
  | none => none
  | some r =>
  match takeClass1 isDigitC r with
  | none => none
  | some (st, r) =>
  match litChar ' ' r with
  | none => none
  | some r =>
  let ip := d1 ++ '.' :: d2 ++ '.' :: d3 ++ '.' :: d4
  match takeClass1 isDigitC r with
  | some (sz, _) => some ⟨ip, ts, mth, url, proto, st, sz⟩
  | none =>
    match litChar '-' r with
    | some _ => some ⟨ip, ts, mth, url, proto, st, ['-']⟩
    | none => none

/-- The named groups of the `application_log` pattern. -/
structure AppGroups where
  timestamp : List Char
  level : List Char
  message : List Char
deriving Repr, DecidableEq

/-- The `application_log` pattern:
`(?P<timestamp>\d{4}-\d{2}-\d{2} \d{2}:\d{2}:\d{2}[,.]?\d*)
\[?(?P<level>\w+)\]?\s*:?\s*(?P<message>.*)`.
A fraction separator not followed by the mandatory space cannot be
rescued by backtracking (the alternative places the space on the
separator itself), so consuming it greedily is exact. -/
def applicationMatch (cs : List Char) : Option AppGroups :=
  match takeClassN 4 isDigitC cs with
  | none => none
  | some (y, r) =>
  match litChar '-' r with
  | none => none
  | some r =>
  match takeClassN 2 isDigitC r with
  | none => none
  | some (mo, r) =>
  match litChar '-' r with
  | none => none
  | some r =>
  match takeClassN 2 isDigitC r with
  | none => none
  | some (d, r) =>
  match litChar ' ' r with
  | none => none
  | some r =>
  match takeClassN 2 isDigitC r with
  | none => none
  | some (h, r) =>
  match litChar ':' r with
  | none => none
  | some r =>
  match takeClassN 2 isDigitC r with
  | none => none
  | some (mi, r) =>
  match litChar ':' r with
  | none => none
  | some r =>
  match takeClassN 2 isDigitC r with
  | none => none
  | some (s, r) =>
  let (fracPart, r) :=
    match r with
    | c :: r2 =>
      if c = ',' ∨ c = '.' then
        let ds := r2.takeWhile isDigitC
        (c :: ds, r2.drop ds.length)
      else ([], c :: r2)
    | [] => (([] : List Char), ([] : List Char))
  match litChar ' ' r with
  | none => none
  | some r =>
  let r := match r with
    | '[' :: r2 => r2
    | r0 => r0
  match takeClass1 isWordC r with
  | none => none
  | some (lvl, r) =>
  let r := match r with
    | ']' :: r2 => r2
    | r0 => r0
  let r := r.dropWhile pyIsSpace
  let r := match r with
    | ':' :: r2 => r2
    | r0 => r0
  let r := r.dropWhile pyIsSpace
  some ⟨y ++ '-' :: mo ++ '-' :: d ++ ' ' :: h ++ ':' :: mi ++ ':' :: s ++ fracPart,
        lvl, r⟩

/-- The named groups of the `system_log` pattern. -/
structure SysGroups where
  timestamp : List Char
  hostname : List Char
  source : List Char
  pid : Option (List Char)
  message : List Char
deriving Repr, DecidableEq

/-- The `system_log` pattern:
`(?P<timestamp>\w{3} \d{1,2} \d{2}:\d{2}:\d{2})
(?P<hostname>\w+) (?P<source>\w+)(\[(?P<pid>\d+)\])?: (?P<message>.*)`.
`\d{1,2}` before a literal space: consuming up to two digits greedily is
exact (the one-digit alternative would place the space on a digit). An
opened `[` whose inner `\d+\]` fails cannot be rescued either (the
following `:` cannot match `[`). -/
def systemMatch (cs : List Char) : Option SysGroups :=
  match takeClassN 3 isWordC cs with
  | none => none
  | some (w3, r) =>
  match litChar ' ' r with
  | none => none
  | some r =>
  let dd := (r.takeWhile isDigitC).take 2
  if dd.isEmpty then none else
  let r := r.drop dd.length
  match litChar ' ' r with
  | none => none
  | some r =>
  match takeClassN 2 isDigitC r with
  | none => none
  | some (h, r) =>
  match litChar ':' r with
  | none => none
  | some r =>
  match takeClassN 2 isDigitC r with
  | none => none
  | some (mi, r) =>
  match litChar ':' r with
  | none => none
  | some r =>
  match takeClassN 2 isDigitC r with
  | none => none
  | some (s, r) =>
  match litChar ' ' r with
  | none => none
  | some r =>
  match takeClass1 isWordC r with
  | none => none
  | some (host, r) =>
  match litChar ' ' r with
  | none => none
  | some r =>
  match takeClass1 isWordC r with
  | none => none
  | some (src, r) =>
  let (pid, r) :=
    match r with
    | '[' :: r2 =>
      match takeClass1 isDigitC r2 with
      | some (ds, r3) =>
        match r3 with
        | ']' :: r4 => (some ds, r4)
        | _ => ((none : Option (List Char)), '[' :: r2)
      | none => ((none : Option (List Char)), '[' :: r2)
    | r0 => ((none : Option (List Char)), r0)
  match litStr ": ".data r with
  | none => none
  | some r =>
  some ⟨w3 ++ ' ' :: dd ++ ' ' :: h ++ ':' :: mi ++ ':' :: s, host, src, pid, r⟩

/-- The named groups of the `iis_log` pattern. -/
structure IisGroups where
  timestamp : List Char
  server_ip : List Char
  method : List Char
  uri : List Char
  query : List Char
  port : List Char
  username : List Char
  client_ip : List Char
  user_agent : List Char
  referer : List Char
  status : List Char
  substatus : List Char
  win32_status : List Char
  time_taken : List Char
deriving Repr, DecidableEq

/-- The `iis_log` pattern: a `\d{4}-\d{2}-\d{2} \d{2}:\d{2}:\d{2}`
timestamp followed by thirteen space-separated `\S+`/`\w+`/`\d+`
fields. -/
def iisMatch (cs : List Char) : Option IisGroups :=
  match takeClassN 4 isDigitC cs with
  | none => none
  | some (y, r) =>
  match litChar '-' r with
  | none => none
  | some r =>
  match takeClassN 2 isDigitC r with
  | none => none
  | some (mo, r) =>
  match litChar '-' r with
  | none => none
  | some r =>
  match takeClassN 2 isDigitC r with
  | none => none
  | some (d, r) =>
  match litChar ' ' r with
  | none => none
  | some r =>
  match takeClassN 2 isDigitC r with
  | none => none
  | some (h, r) =>
  match litChar ':' r with
  | none => none
  | some r =>
  match takeClassN 2 isDigitC r with
  | none => none
  | some (mi, r) =>
  match litChar ':' r with
  | none => none
  | some r =>
  match takeClassN 2 isDigitC r with
  | none => none
  | some (s, r) =>
  match litChar ' ' r with
  | none => none
  | some r =>
  match takeClass1 isNonSpaceC r with
  | none => none
  | some (sip, r) =>
  match litChar ' ' r with
  | none => none
  | some r =>
  match takeClass1 isWordC r with
  | none => none
  | some (mth, r) =>
  match litChar ' ' r with
  | none => none
  | some r =>
  match takeClass1 isNonSpaceC r with
  | none => none
  | some (uri, r) =>
  match litChar ' ' r with
  | none => none
  | some r =>
  match takeClass1 isNonSpaceC r with
  | none => none
  | some (query, r) =>
  match litChar ' ' r with
  | none => none
  | some r =>
  match takeClass1 isDigitC r with
  | none => none
  | some (port, r) =>
  match litChar ' ' r with
  | none => none
  | some r =>
  match takeClass1 isNonSpaceC r with
  | none => none
  | some (user, r) =>
  match litChar ' ' r with
  | none => none
  | some r =>
  match takeClass1 isNonSpaceC r with
  | none => none
  | some (cip, r) =>
  match litChar ' ' r with
  | none => none
  | some r =>
  match takeClass1 isNonSpaceC r with
  | none => none
  | some (ua, r) =>
  match litChar ' ' r with
  | none => none
  | some r =>
  match takeClass1 isNonSpaceC r with
  | none => none
  | some (ref, r) =>
  match litChar ' ' r with
  | none => none
  | some r =>
  match takeClass1 isDigitC r with
  | none => none
  | some (st, r) =>
  match litChar ' ' r with
  | none => none
  | some r =>
  match takeClass1 isDigitC r with
  | none => none
  | some (sst, r) =>
  match litChar ' ' r with
  | none => none
  | some r =>
  match takeClass1 isDigitC r with
  | none => none
  | some (w32, r) =>
  match litChar ' ' r with
  | none => none
  | some r =>
  match takeClass1 isDigitC r with
  | none => none
  | some (tt, _) =>
  some ⟨y ++ '-' :: mo ++ '-' :: d ++ ' ' :: h ++ ':' :: mi ++ ':' :: s,
        sip, mth, uri, query, port, user, cip, ua, ref, st, sst, w32, tt⟩

/-! ### The keyword fallback of `parse_line` -/

/-- One attempt of the fallback alternation
`(ERROR|WARN|INFO|DEBUG|TRACE|FATAL)` with `re.IGNORECASE` at the head of
`cs`, alternatives in source order; the returned characters keep the
input's case (`fallback_match.group(1)`). -/
def kwAt (cs : List Char) : Option (List Char) :=
  if ("ERROR".data).isPrefixOf (cs.map Char.toUpper) then some (cs.take 5)
  else if ("WARN".data).isPrefixOf (cs.map Char.toUpper) then some (cs.take 4)
  else if ("INFO".data).isPrefixOf (cs.map Char.toUpper) then some (cs.take 4)
  else if ("DEBUG".data).isPrefixOf (cs.map Char.toUpper) then some (cs.take 5)
  else if ("TRACE".data).isPrefixOf (cs.map Char.toUpper) then some (cs.take 5)
  else if ("FATAL".data).isPrefixOf (cs.map Char.toUpper) then some (cs.take 5)
  else none

/-- `re.search` of the fallback alternation: the leftmost position where
some alternative matches wins. -/
def searchKw : List Char → Option (List Char)
  | [] => none
  | c :: rest =>
    match kwAt (c :: rest) with
    | some t => some t
    | none => searchKw rest

/-! ### `LogParser.parse_line` -/

/-- The entry built from an `apache_access` match: `INFO` below status
400 and `ERROR` from 400 up, the message synthesized as
`f"{method} {url} - {status}"`, the source fixed to `'apache'`. -/
def apacheEntry (now : DateTime) (g : ApacheGroups) (t : List Char) (n : Nat) :
    LogEntry :=
  mkLogEntry ((parse_timestamp ⟨g.timestamp⟩).getD now)
    (if natOfDigits g.status < 400 then "INFO" else "ERROR")
    ⟨g.method ++ ' ' :: g.url ++ ' ' :: '-' :: ' ' :: g.status⟩
    "apache" ⟨t⟩ n

/-- The entry built from an `application_log` match: level and message
from the captured groups, source defaulted to the empty string (the
pattern has no `source` group). -/
def appEntry (now : DateTime) (g : AppGroups) (t : List Char) (n : Nat) : LogEntry :=
  mkLogEntry ((parse_timestamp ⟨g.timestamp⟩).getD now)
    ⟨g.level⟩ ⟨g.message⟩ "" ⟨t⟩ n

/-- The entry built from a `system_log` match: level fixed to `INFO`,
message and source from the captured groups. -/
def sysEntry (now : DateTime) (g : SysGroups) (t : List Char) (n : Nat) : LogEntry :=
  mkLogEntry ((parse_timestamp ⟨g.timestamp⟩).getD now)
    "INFO" ⟨g.message⟩ ⟨g.source⟩ ⟨t⟩ n

/-- The entry built from an `iis_log` match: the pattern has no `level`,
`message` or `source` group, so `groups.get` defaults them to `INFO`,
`''` and `''`. -/
def iisEntry (now : DateTime) (g : IisGroups) (t : List Char) (n : Nat) : LogEntry :=
  mkLogEntry ((parse_timestamp ⟨g.timestamp⟩).getD now)
    "INFO" "" "" ⟨t⟩ n

/-- The entry built from a fallback keyword hit: the matched text as
level, the whole (stripped) line as message, source `'unknown'`,
timestamp `datetime.now()`. -/
def kwEntry (now : DateTime) (kw t : List Char) (n : Nat) : LogEntry :=
  mkLogEntry now ⟨kw⟩ ⟨t⟩ "unknown" ⟨t⟩ n

/-- The final catch-all entry: level `INFO`, the whole (stripped) line as
message, source `'unknown'`, timestamp `datetime.now()`. -/
def catchAllEntry (now : DateTime) (t : List Char) (n : Nat) : LogEntry :=
  mkLogEntry now "INFO" ⟨t⟩ "unknown" ⟨t⟩ n

/-- `LogParser.parse_line`: strip; skip blank and `#`-comment lines; try
the four patterns in the dictionary's insertion order; then the keyword
fallback; then the catch-all. `now` stands for `datetime.datetime.now()`,
injected to keep the function pure. -/
def parse_line (now : DateTime) (line : String) (line_number : Nat) :
    Option LogEntry :=
  let t := stripChars line.data
  if t.isEmpty ∨ t.head? = some '#' then none
  else
    match apacheMatch t with
    | some g => some (apacheEntry now g t line_number)
    | none =>
      match applicationMatch t with
      | some g => some (appEntry now g t line_number)
      | none =>
        match systemMatch t with
        | some g => some (sysEntry now g t line_number)
        | none =>
          match iisMatch t with
          | some g => some (iisEntry now g t line_number)
          | none =>
            match searchKw t with
            | some kw => some (kwEntry now kw t line_number)
            | none => some (catchAllEntry now t line_number)

/-! ### Helper lemmas about the matchers and the keyword search -/

/-- A fixed concrete stand-in for `datetime.now()` in closed instances. -/
def dtNow : DateTime := ⟨2025, 1, 1, 0, 0, 0, 0, none⟩

theorem takeClass1_cons_head {p : Char → Bool} {c : Char} {rest t r : List Char}
    (h : takeClass1 p (c :: rest) = some (t, r)) : p c = true := by
  by_cases hp : p c = true
  · exact hp
  · simp [takeClass1, hp] at h

theorem apacheMatch_head {cs : List Char} {g : ApacheGroups}
    (h : apacheMatch cs = some g) : ∃ c rest, cs = c :: rest ∧ isDigitC c = true := by
  cases cs with
  | nil => simp [apacheMatch, takeClass1] at h
  | cons c rest =>
    refine ⟨c, rest, rfl, ?_⟩
    by_cases hp : isDigitC c = true
    · exact hp
    · simp [apacheMatch, takeClass1, hp] at h

theorem containsSub_cons_false {c : Char} {rest pat : List Char}
    (h : containsSub (c :: rest) pat = false) :
    pat.isPrefixOf (c :: rest) = false ∧ containsSub rest pat = false := by
  simp only [containsSub, Bool.or_eq_false_iff] at h
  exact h

theorem containsSub_cons_tail {c : Char} {rest pat : List Char}
    (h : containsSub (c :: rest) pat = true) (hp : pat.isPrefixOf (c :: rest) = false) :
    containsSub rest pat = true := by
  simp only [containsSub, hp, Bool.false_or] at h
  exact h

/-- The core of the keyword fallback: when the uppercased line contains
`WARNING` and none of the other five severity keywords, the search stops
on the `WARN` alternative — never on the full word `WARNING`, which is
not an alternative of the pattern at all. -/
theorem searchKw_warn : ∀ cs : List Char,
    containsSub (cs.map Char.toUpper) ("WARNING".data) = true →
    containsSub (cs.map Char.toUpper) ("ERROR".data) = false →
    containsSub (cs.map Char.toUpper) ("INFO".data) = false →
    containsSub (cs.map Char.toUpper) ("DEBUG".data) = false →
    containsSub (cs.map Char.toUpper) ("TRACE".data) = false →
    containsSub (cs.map Char.toUpper) ("FATAL".data) = false →
    ∃ t, searchKw cs = some t ∧ t.map Char.toUpper = "WARN".data
  | [] => by
    intro hW hE hI hD hT hF
    exact absurd hW (by decide)
  | c :: rest => by
    intro hW hE hI hD hT hF
    simp only [List.map_cons] at hW hE hI hD hT hF
    have hE' := containsSub_cons_false hE
    have hI' := containsSub_cons_false hI
    have hD' := containsSub_cons_false hD
    have hT' := containsSub_cons_false hT
    have hF' := containsSub_cons_false hF
    by_cases hWp :
        ("WARN".data).isPrefixOf (Char.toUpper c :: rest.map Char.toUpper) = true
    · refine ⟨(c :: rest).take 4, ?_, ?_⟩
      · simp only [searchKw, kwAt, List.map_cons, hE'.1, hWp, Bool.false_eq_true,
          if_false, if_true]
      · have hpre : "WARN".data <+: (Char.toUpper c :: rest.map Char.toUpper) :=
          List.isPrefixOf_iff_prefix.mp hWp
        have h4 : ("WARN".data).length = 4 := rfl
        have htake := List.prefix_iff_eq_take.mp hpre
        rw [List.map_take, List.map_cons, ← h4, ← htake]
    · have hWp' : ("WARN".data).isPrefixOf (Char.toUpper c :: rest.map Char.toUpper)
          = false := by
        cases hb : ("WARN".data).isPrefixOf (Char.toUpper c :: rest.map Char.toUpper)
        · rfl
        · exact absurd hb hWp
      have hW7p : ("WARNING".data).isPrefixOf (Char.toUpper c :: rest.map Char.toUpper)
          = false := by
        cases hb : ("WARNING".data).isPrefixOf (Char.toUpper c :: rest.map Char.toUpper)
        · rfl
        · exfalso
          apply hWp
          exact List.isPrefixOf_iff_prefix.mpr
            (List.IsPrefix.trans (by decide) (List.isPrefixOf_iff_prefix.mp hb))
      have hWtail := containsSub_cons_tail hW hW7p
      obtain ⟨t, ht, htm⟩ :=
        searchKw_warn rest hWtail hE'.2 hI'.2 hD'.2 hT'.2 hF'.2
      refine ⟨t, ?_, htm⟩
      have hk : kwAt (c :: rest) = none := by
        simp only [kwAt, List.map_cons, hE'.1, hWp', hI'.1, hD'.1, hT'.1, hF'.1,
          Bool.false_eq_true, if_false]
      simp only [searchKw, hk]
      exact ht

/-! ### Claim theorems about `parse_line` and `parse_timestamp` -/

/-- C1: every input line whose stripped form is non-empty and does not
start with `#` yields a `LogEntry` (the fallback chain ends in a
catch-all), and exactly the blank or `#`-comment lines yield `None`. -/
theorem C1_parse_line_total (now : DateTime) (line : String) (n : Nat) :
    (parse_line now line n).isSome = true ↔
      stripChars line.data ≠ [] ∧ (stripChars line.data).head? ≠ some '#' := by
  unfold parse_line
  by_cases h : (stripChars line.data).isEmpty = true ∨
      (stripChars line.data).head? = some '#'
  · rw [if_pos h]
    simp only [Option.isSome_none, Bool.false_eq_true, false_iff, not_and]
    intro hne
    rcases h with h | h
    · exact absurd (List.isEmpty_iff.mp h) hne
    · intro hc; exact hc h
  · rw [if_neg h]
    push_neg at h
    refine iff_of_true ?_ ⟨fun hc => h.1 (by simp [hc]), h.2⟩
    rcases apacheMatch (stripChars line.data) with _ | g
    rotate_left
    · rfl
    rcases applicationMatch (stripChars line.data) with _ | g
    rotate_left
    · rfl
    rcases systemMatch (stripChars line.data) with _ | g
    rotate_left
    · rfl
    rcases iisMatch (stripChars line.data) with _ | g
    rotate_left
    · rfl
    rcases searchKw (stripChars line.data) with _ | kw <;> rfl

/-- C2: of the five timestamp shapes the spec lists, four normalize to the
same date and time components (ignoring fractional seconds), but
`"2024-01-15T10:30:25"` does not: while trying the `%z` format the code
appends `' +0000'` to the shared `timestamp_str`, so the later plain-ISO
format and the `fromisoformat` fallback see a trailing `' +0000'` and
fail, and the function returns `None`. The garbage string
`"not-a-time"` returns `None` as the spec says. -/
theorem C2_timestamp_normalization :
    parse_timestamp "2024-01-15 10:30:25" = some ⟨2024, 1, 15, 10, 30, 25, 0, none⟩
    ∧ parse_timestamp "2024-01-15 10:30:25.123"
        = some ⟨2024, 1, 15, 10, 30, 25, 123000, none⟩
    ∧ parse_timestamp "2024-01-15 10:30:25,456"
        = some ⟨2024, 1, 15, 10, 30, 25, 456000, none⟩
    ∧ parse_timestamp "2024-01-15T10:30:25.123Z"
        = some ⟨2024, 1, 15, 10, 30, 25, 123000, none⟩
    ∧ parse_timestamp "2024-01-15T10:30:25" = none
    ∧ parse_timestamp "not-a-time" = none := by
  refine ⟨?_, ?_, ?_, ?_, ?_, ?_⟩ <;> rfl

/-- C7: a line matched by the `apache_access` pattern is classified with
level `INFO` when the numeric status is below 400 and `ERROR` otherwise,
message `f"{method} {url} - {status}"`, and the fixed source tag
`'apache'`. -/
theorem C7_access_log_rules (now : DateTime) (line : String) (n : Nat)
    (g : ApacheGroups) (h : apacheMatch (stripChars line.data) = some g) :
    parse_line now line n = some (apacheEntry now g (stripChars line.data) n)
    ∧ (apacheEntry now g (stripChars line.data) n).level =
        (if natOfDigits g.status < 400 then "INFO" else "ERROR")
    ∧ (apacheEntry now g (stripChars line.data) n).message =
        ⟨g.method ++ ' ' :: g.url ++ ' ' :: '-' :: ' ' :: g.status⟩
    ∧ (apacheEntry now g (stripChars line.data) n).source = "apache" := by
  obtain ⟨c, rest, hcs, hd⟩ := apacheMatch_head h
  have hguard : ¬((stripChars line.data).isEmpty = true ∨
      (stripChars line.data).head? = some '#') := by
    rw [hcs]
    rintro (hc | hc)
    · simp at hc
    · simp only [List.head?_cons, Option.some.injEq] at hc
      subst hc
      exact absurd hd (by decide)
  refine ⟨?_, ?_, rfl, rfl⟩
  · unfold parse_line
    rw [if_neg hguard, h]
  · by_cases hst : natOfDigits g.status < 400 <;>
      simp only [apacheEntry, mkLogEntry, hst, if_true, if_false] <;> rfl

/-- A concrete access-log line with status 403 (from the repository's own
test data). -/
def apacheLine403 : String :=
  "192.168.1.102 - - [15/Jan/2024:10:30:33 -0700] \"GET /admin HTTP/1.1\" 403 145"

/-- The groups the `apache_access` pattern captures on `apacheLine403`. -/
def apacheGroups403 : ApacheGroups :=
  ⟨"192.168.1.102".data, "15/Jan/2024:10:30:33 -0700".data, "GET".data,
   "/admin".data, "HTTP/1.1".data, "403".data, "145".data⟩

/-- Witness for C7 at a concrete 403 line. -/
theorem C7_access_log_rules_witness :
    parse_line dtNow apacheLine403 1
      = some (apacheEntry dtNow apacheGroups403 (stripChars apacheLine403.data) 1)
    ∧ (apacheEntry dtNow apacheGroups403 (stripChars apacheLine403.data) 1).level =
        (if natOfDigits apacheGroups403.status < 400 then "INFO" else "ERROR")
    ∧ (apacheEntry dtNow apacheGroups403 (stripChars apacheLine403.data) 1).message =
        ⟨apacheGroups403.method ++ ' ' :: apacheGroups403.url
          ++ ' ' :: '-' :: ' ' :: apacheGroups403.status⟩
    ∧ (apacheEntry dtNow apacheGroups403 (stripChars apacheLine403.data) 1).source
        = "apache" :=
  C7_access_log_rules dtNow apacheLine403 1 apacheGroups403 rfl

/-- C10, counterexample: the line `"error warning"` matches no format
pattern and contains `warning`, yet the keyword fallback assigns level
`ERROR` (the search's leftmost match), not `WARN`: the claim's universal
statement fails. -/
theorem C10_counterexample :
    apacheMatch (stripChars ("error warning").data) = none
    ∧ applicationMatch (stripChars ("error warning").data) = none
    ∧ systemMatch (stripChars ("error warning").data) = none
    ∧ iisMatch (stripChars ("error warning").data) = none
    ∧ containsSub ((stripChars ("error warning").data).map Char.toUpper)
        ("WARNING".data) = true
    ∧ (parse_line dtNow "error warning" 1).map LogEntry.level = some "ERROR"
    ∧ (parse_line dtNow "error warning" 1).map LogEntry.level ≠ some "WARN" := by
  refine ⟨rfl, rfl, rfl, rfl, rfl, rfl, ?_⟩
  decide

/-- A prefix of the uppercased input of known length is what `take`
recovers from the original, uppercased. -/
theorem take_map_of_isPrefixOf {alt cs : List Char} (k : Nat) (hk : alt.length = k)
    (h : alt.isPrefixOf (cs.map Char.toUpper) = true) :
    (cs.take k).map Char.toUpper = alt := by
  have htake := List.prefix_iff_eq_take.mp (List.isPrefixOf_iff_prefix.mp h)
  rw [List.map_take, ← hk]
  exact htake.symm

/-- Whatever `kwAt` matches uppercases to one of the six alternatives of
the fallback alternation — `WARNING` is not among them. -/
theorem kwAt_spec {cs t : List Char} (h : kwAt cs = some t) :
    t.map Char.toUpper = "ERROR".data ∨ t.map Char.toUpper = "WARN".data
    ∨ t.map Char.toUpper = "INFO".data ∨ t.map Char.toUpper = "DEBUG".data
    ∨ t.map Char.toUpper = "TRACE".data ∨ t.map Char.toUpper = "FATAL".data := by
  unfold kwAt at h
  by_cases h1 : ("ERROR".data).isPrefixOf (cs.map Char.toUpper) = true
  · rw [if_pos h1] at h
    cases Option.some.inj h
    exact Or.inl (take_map_of_isPrefixOf 5 rfl h1)
  · rw [if_neg h1] at h
    by_cases h2 : ("WARN".data).isPrefixOf (cs.map Char.toUpper) = true
    · rw [if_pos h2] at h
      cases Option.some.inj h
      exact Or.inr (Or.inl (take_map_of_isPrefixOf 4 rfl h2))
    · rw [if_neg h2] at h
      by_cases h3 : ("INFO".data).isPrefixOf (cs.map Char.toUpper) = true
      · rw [if_pos h3] at h
        cases Option.some.inj h
        exact Or.inr (Or.inr (Or.inl (take_map_of_isPrefixOf 4 rfl h3)))
      · rw [if_neg h3] at h
        by_cases h4 : ("DEBUG".data).isPrefixOf (cs.map Char.toUpper) = true
        · rw [if_pos h4] at h
          cases Option.some.inj h
          exact Or.inr (Or.inr (Or.inr (Or.inl (take_map_of_isPrefixOf 5 rfl h4))))
        · rw [if_neg h4] at h
          by_cases h5 : ("TRACE".data).isPrefixOf (cs.map Char.toUpper) = true
          · rw [if_pos h5] at h
            cases Option.some.inj h
            exact Or.inr (Or.inr (Or.inr (Or.inr (Or.inl
              (take_map_of_isPrefixOf 5 rfl h5)))))
          · rw [if_neg h5] at h
            by_cases h6 : ("FATAL".data).isPrefixOf (cs.map Char.toUpper) = true
            · rw [if_pos h6] at h
              cases Option.some.inj h
              exact Or.inr (Or.inr (Or.inr (Or.inr (Or.inr
                (take_map_of_isPrefixOf 5 rfl h6)))))
            · rw [if_neg h6] at h
              exact Option.noConfusion h

/-- When `kwAt` misses, in particular the `WARN` alternative was not a
prefix at that position. -/
theorem kwAt_none_warn {cs : List Char} (h : kwAt cs = none) :
    ("WARN".data).isPrefixOf (cs.map Char.toUpper) = false := by
  by_cases h1 : ("ERROR".data).isPrefixOf (cs.map Char.toUpper) = true
  · unfold kwAt at h
    rw [if_pos h1] at h
    exact Option.noConfusion h
  · by_cases h2 : ("WARN".data).isPrefixOf (cs.map Char.toUpper) = true
    · unfold kwAt at h
      rw [if_neg h1, if_pos h2] at h
      exact Option.noConfusion h
    · cases hb : ("WARN".data).isPrefixOf (cs.map Char.toUpper)
      · rfl
      · exact absurd hb h2

/-- A line whose uppercase form contains `WARNING` always makes the
fallback search succeed: at the occurrence itself the `WARN` alternative
matches, so some position matches at or before it. -/
theorem searchKw_isSome_of_warning : ∀ cs : List Char,
    containsSub (cs.map Char.toUpper) ("WARNING".data) = true →
    ∃ t, searchKw cs = some t
  | [] => fun hW => absurd hW (by decide)
  | c :: rest => fun hW => by
    cases hk : kwAt (c :: rest) with
    | some t => exact ⟨t, by simp only [searchKw, hk]⟩
    | none =>
      have hWp := kwAt_none_warn hk
      have hW7p : ("WARNING".data).isPrefixOf ((c :: rest).map Char.toUpper)
          = false := by
        cases hb : ("WARNING".data).isPrefixOf ((c :: rest).map Char.toUpper)
        · rfl
        · exfalso
          have hwp : ("WARN".data).isPrefixOf ((c :: rest).map Char.toUpper)
              = true :=
            List.isPrefixOf_iff_prefix.mpr
              (List.IsPrefix.trans (by decide) (List.isPrefixOf_iff_prefix.mp hb))
          rw [hwp] at hWp
          exact Bool.noConfusion hWp
      rw [List.map_cons] at hW hW7p
      have hW' := containsSub_cons_tail hW hW7p
      obtain ⟨t, ht⟩ := searchKw_isSome_of_warning rest hW'
      exact ⟨t, by simp only [searchKw, hk]; exact ht⟩

/-- Every successful fallback search returns text that uppercases to one
of the six alternatives. -/
theorem searchKw_mem : ∀ (cs t : List Char), searchKw cs = some t →
    t.map Char.toUpper = "ERROR".data ∨ t.map Char.toUpper = "WARN".data
    ∨ t.map Char.toUpper = "INFO".data ∨ t.map Char.toUpper = "DEBUG".data
    ∨ t.map Char.toUpper = "TRACE".data ∨ t.map Char.toUpper = "FATAL".data
  | [], t => fun h => Option.noConfusion h
  | c :: rest, t => fun h => by
    cases hk : kwAt (c :: rest) with
    | some t' =>
      have hstep : searchKw (c :: rest) = some t' := by simp only [searchKw, hk]
      rw [hstep] at h
      cases Option.some.inj h
      exact kwAt_spec hk
    | none =>
      have hstep : searchKw (c :: rest) = searchKw rest := by
        simp only [searchKw, hk]
      rw [hstep] at h
      exact searchKw_mem rest t h

/-- C10, amended: for every line that matches no format pattern, is
neither blank nor a comment, and contains `warning` in any letter case,
the keyword fallback never assigns level `WARNING` (it is not an
alternative of the pattern), so such an entry is never counted among the
`WARNING`-levelled entries; when additionally no other severity keyword
occurs in the line, the assigned level is exactly `WARN`, the
alternation's prefix of `WARNING`. -/
theorem C10_fallback_warn_level (now : DateTime) (line : String) (n : Nat)
    (hA : apacheMatch (stripChars line.data) = none)
    (hP : applicationMatch (stripChars line.data) = none)
    (hS : systemMatch (stripChars line.data) = none)
    (hIis : iisMatch (stripChars line.data) = none)
    (hblank : stripChars line.data ≠ [])
    (hcomment : (stripChars line.data).head? ≠ some '#')
    (hW : containsSub ((stripChars line.data).map Char.toUpper)
      ("WARNING".data) = true) :
    ∃ e, parse_line now line n = some e
      ∧ e.level ≠ "WARNING"
      ∧ (∀ l : List LogEntry, e ∉ l.filter (fun x => x.level == "WARNING"))
      ∧ (containsSub ((stripChars line.data).map Char.toUpper) ("ERROR".data) = false →
         containsSub ((stripChars line.data).map Char.toUpper) ("INFO".data) = false →
         containsSub ((stripChars line.data).map Char.toUpper) ("DEBUG".data) = false →
         containsSub ((stripChars line.data).map Char.toUpper) ("TRACE".data) = false →
         containsSub ((stripChars line.data).map Char.toUpper) ("FATAL".data) = false →
         e.level = "WARN") := by
  obtain ⟨t, ht⟩ := searchKw_isSome_of_warning _ hW
  have hlev : (kwEntry now t (stripChars line.data) n).level
      = (⟨t.map Char.toUpper⟩ : String) := rfl
  have hne : (kwEntry now t (stripChars line.data) n).level ≠ "WARNING" := by
    rw [hlev]
    intro hc
    have h2 : t.map Char.toUpper = "WARNING".data := congrArg String.data hc
    rcases searchKw_mem _ _ ht with h | h | h | h | h | h <;>
      rw [h] at h2 <;> exact absurd h2 (by decide)
  refine ⟨kwEntry now t (stripChars line.data) n, ?_, hne, ?_, ?_⟩
  · have hguard : ¬((stripChars line.data).isEmpty = true ∨
        (stripChars line.data).head? = some '#') := by
      rintro (hc | hc)
      · exact hblank (List.isEmpty_iff.mp hc)
      · exact hcomment hc
    unfold parse_line
    rw [if_neg hguard, hA, hP, hS, hIis, ht]
  · intro l hmem
    rw [List.mem_filter] at hmem
    exact hne (eq_of_beq hmem.2)
  · intro hE hI hD hT hF
    obtain ⟨t2, ht2, htm⟩ := searchKw_warn _ hW hE hI hD hT hF
    rw [ht] at ht2
    cases Option.some.inj ht2
    rw [hlev, htm]

/-- Witness for the amended C10 at the line `"high memory warning"`,
exercising both the never-`WARNING` clause and the `WARN` clause. -/
theorem C10_fallback_warn_level_witness :
    ∃ e, parse_line dtNow "high memory warning" 3 = some e
      ∧ e.level ≠ "WARNING"
      ∧ (∀ l : List LogEntry, e ∉ l.filter (fun x => x.level == "WARNING"))
      ∧ (containsSub ((stripChars ("high memory warning").data).map Char.toUpper)
          ("ERROR".data) = false →
         containsSub ((stripChars ("high memory warning").data).map Char.toUpper)
          ("INFO".data) = false →
         containsSub ((stripChars ("high memory warning").data).map Char.toUpper)
          ("DEBUG".data) = false →
         containsSub ((stripChars ("high memory warning").data).map Char.toUpper)
          ("TRACE".data) = false →
         containsSub ((stripChars ("high memory warning").data).map Char.toUpper)
          ("FATAL".data) = false →
         e.level = "WARN") :=
  C10_fallback_warn_level dtNow "high memory warning" 3 rfl rfl rfl rfl
    (by decide) (by decide) rfl

/-! ### `LogAnalyzer.filter_entries`

The five optional criteria are applied as successive list
comprehensions. Python truthiness decides whether a criterion is
applied: `None` never is, and neither is an empty level list, an empty
keyword list or an empty source string. -/

/-- `LogAnalyzer.filter_entries`, stage by stage as in the source. -/
def filter_entries (entries : List LogEntry) (start_date end_date : Option DateTime)
    (levels keywords : Option (List String)) (source : Option String) :
    List LogEntry :=
  let f1 := match start_date with
    | some sd => entries.filter (fun e => dtLe sd e.timestamp)
    | none => entries
  let f2 := match end_date with
    | some ed => f1.filter (fun e => dtLe e.timestamp ed)
    | none => f1
  let f3 := match levels with
    | some (l :: ls) => f2.filter (fun e => ((l :: ls).map sUpper).contains e.level)
    | _ => f2
  let f4 := match keywords with
    | some (k :: ks) => f3.filter (fun e => (k :: ks).any (fun kw =>
        containsSub (e.message.data.map Char.toLower) (kw.data.map Char.toLower)))
    | _ => f3
  match source with
  | some src =>
    if src = "" then f4
    else f4.filter (fun e =>
      containsSub (e.source.data.map Char.toLower) (src.data.map Char.toLower))
  | none => f4

/-- The time-range criterion: entries at or after the start date. -/
def passStart (sd : Option DateTime) (e : LogEntry) : Bool :=
  match sd with
  | some s => dtLe s e.timestamp
  | none => true

/-- The time-range criterion: entries at or before the end date. -/
def passEnd (ed : Option DateTime) (e : LogEntry) : Bool :=
  match ed with
  | some d => dtLe e.timestamp d
  | none => true

/-- The level criterion: OR over the uppercased supplied levels; an
absent (or empty, hence falsy) level list filters nothing. -/
def passLevels (levels : Option (List String)) (e : LogEntry) : Bool :=
  match levels with
  | some (l :: ls) => ((l :: ls).map sUpper).contains e.level
  | _ => true

/-- The keyword criterion: case-insensitive substring match of any one
keyword against the message; an absent (or empty) keyword list filters
nothing. -/
def passKeywords (keywords : Option (List String)) (e : LogEntry) : Bool :=
  match keywords with
  | some (k :: ks) => (k :: ks).any (fun kw =>
      containsSub (e.message.data.map Char.toLower) (kw.data.map Char.toLower))
  | _ => true

/-- The source criterion: case-insensitive substring containment; an
absent (or empty-string) source filters nothing. -/
def passSource (source : Option String) (e : LogEntry) : Bool :=
  match source with
  | some src =>
    if src = "" then true
    else containsSub (e.source.data.map Char.toLower) (src.data.map Char.toLower)
  | none => true

/-- The specification's description of the filter: the conjunction of the
five independent criteria. -/
def matchesCriteria (sd ed : Option DateTime) (lv kw : Option (List String))
    (src : Option String) (e : LogEntry) : Bool :=
  passStart sd e && passEnd ed e && passLevels lv e && passKeywords kw e
    && passSource src e

theorem filter_entries_eq_stages (entries : List LogEntry)
    (sd ed : Option DateTime) (lv kw : Option (List String)) (src : Option String) :
    filter_entries entries sd ed lv kw src =
      ((((entries.filter (passStart sd)).filter (passEnd ed)).filter
          (passLevels lv)).filter (passKeywords kw)).filter (passSource src) := by
  unfold filter_entries passStart passEnd passLevels passKeywords passSource
  rcases sd with _ | s <;> rcases ed with _ | d <;>
    rcases lv with _ | (_ | ⟨l, ls⟩) <;> rcases kw with _ | (_ | ⟨k, ks⟩) <;>
    rcases src with _ | src
  all_goals
    first
      | (simp only [List.filter_true]; done)
      | (by_cases hsrc : src = "" <;> simp [hsrc])

theorem filter_entries_eq_filter (entries : List LogEntry)
    (sd ed : Option DateTime) (lv kw : Option (List String)) (src : Option String) :
    filter_entries entries sd ed lv kw src =
      entries.filter (matchesCriteria sd ed lv kw src) := by
  rw [filter_entries_eq_stages, List.filter_filter, List.filter_filter,
    List.filter_filter, List.filter_filter]
  unfold matchesCriteria
  refine List.filter_congr (fun a _ => ?_)
  cases passStart sd a <;> cases passEnd ed a <;> cases passLevels lv a <;>
    cases passKeywords kw a <;> cases passSource src a <;> rfl

/-- C4: `filter_entries` returns exactly the entries satisfying all
supplied criteria — AND across the five filter kinds, OR within the
level set (after uppercasing) and within the keyword set
(case-insensitive substring match against the message), case-insensitive
substring containment for the source; an absent criterion (and, by
Python truthiness, an empty level list, keyword list or source string)
filters nothing. -/
theorem C4_filter_conjunction (entries : List LogEntry)
    (sd ed : Option DateTime) (lv kw : Option (List String)) (src : Option String) :
    filter_entries entries sd ed lv kw src =
      entries.filter (matchesCriteria sd ed lv kw src) :=
  filter_entries_eq_filter entries sd ed lv kw src

/-- C5: filtering is a pure narrowing: the result is a subsequence of the
record set, and filtering the result again with the same criteria is the
identity. (The embedding is functional, so the input list itself is
never mutated by construction.) -/
theorem C5_filter_narrowing (entries : List LogEntry)
    (sd ed : Option DateTime) (lv kw : Option (List String)) (src : Option String) :
    List.Sublist (filter_entries entries sd ed lv kw src) entries
    ∧ filter_entries (filter_entries entries sd ed lv kw src) sd ed lv kw src =
        filter_entries entries sd ed lv kw src := by
  constructor
  · rw [filter_entries_eq_filter]
    exact List.filter_sublist entries
  · rw [filter_entries_eq_filter, filter_entries_eq_filter, List.filter_filter]
    simp [Bool.and_self]

/-! ### `LogAnalyzer.generate_statistics`

`collections.Counter` over a sequence is modelled as an association
list: the keys in first-occurrence order (a `dict` preserves insertion
order), each with its multiplicity. -/

/-- The keys of a `Counter`, in first-occurrence order. -/
def dedupFirst {α : Type} [BEq α] : List α → List α
  | [] => []
  | x :: xs => x :: dedupFirst (xs.filter (fun y => !(y == x)))
termination_by l => l.length
decreasing_by
  simp only [List.length_cons]
  exact Nat.lt_succ_of_le (List.length_filter_le _ _)

/-- `collections.Counter(l)` as an association list. -/
def countList {α : Type} [BEq α] (l : List α) : List (α × Nat) :=
  (dedupFirst l).map (fun k => (k, l.count k))

theorem mem_dedupFirst {α : Type} [BEq α] [LawfulBEq α] :
    ∀ (l : List α) (k : α), k ∈ dedupFirst l → k ∈ l
  | [], k => by simp [dedupFirst]
  | x :: xs, k => by
    intro h
    rw [dedupFirst] at h
    rcases List.mem_cons.mp h with h | h
    · simp [h]
    · exact List.mem_cons_of_mem x
        (List.mem_of_mem_filter (mem_dedupFirst _ _ h))
termination_by l => l.length
decreasing_by
  simp only [List.length_cons]
  exact Nat.lt_succ_of_le (List.length_filter_le _ _)

theorem count_filter_not_beq {α : Type} [BEq α] [LawfulBEq α] (x k : α)
    (hk : (k == x) = false) (xs : List α) :
    (xs.filter (fun y => !(y == x))).count k = xs.count k :=
  List.count_filter (by simp [hk])

theorem count_add_filter_length {α : Type} [BEq α] [LawfulBEq α] (x : α)
    (xs : List α) :
    xs.count x + (xs.filter (fun y => !(y == x))).length = xs.length := by
  induction xs with
  | nil => simp
  | cons a t ih =>
    by_cases h : (a == x) = true
    · have ha : a = x := eq_of_beq h
      subst ha
      rw [List.filter_cons_of_neg (by simp)]
      simp only [List.count_cons, beq_self_eq_true, if_true, List.length_cons]
      omega
    · have h' : (a == x) = false := by simpa using h
      rw [List.filter_cons_of_pos (by simp [h'])]
      simp only [List.count_cons, h', Bool.false_eq_true, if_false,
        List.length_cons, Nat.add_zero]
      omega

theorem sum_dedupFirst_counts {α : Type} [BEq α] [LawfulBEq α] :
    ∀ l : List α, ((dedupFirst l).map (fun k => l.count k)).sum = l.length
  | [] => by simp [dedupFirst]
  | x :: xs => by
    rw [dedupFirst, List.map_cons, List.sum_cons]
    have hmap : (dedupFirst (xs.filter (fun y => !(y == x)))).map
          (fun k => (x :: xs).count k)
        = (dedupFirst (xs.filter (fun y => !(y == x)))).map
          (fun k => (xs.filter (fun y => !(y == x))).count k) := by
      apply List.map_congr_left
      intro k hk
      have hkf := mem_dedupFirst _ _ hk
      have hne : (k == x) = false := by
        have := (List.mem_filter.mp hkf).2
        simpa using this
      have hxk : (x == k) = false :=
        beq_eq_false_iff_ne.mpr (Ne.symm (beq_eq_false_iff_ne.mp hne))
      rw [List.count_cons, count_filter_not_beq x k hne xs]
      simp only [hxk, Bool.false_eq_true, if_false, Nat.add_zero]
    rw [hmap, sum_dedupFirst_counts (xs.filter (fun y => !(y == x)))]
    rw [List.count_cons]
    simp only [beq_self_eq_true, if_true, List.length_cons]
    have := count_add_filter_length x xs
    omega
termination_by l => l.length
decreasing_by
  simp only [List.length_cons]
  exact Nat.lt_succ_of_le (List.length_filter_le _ _)

theorem length_filter_disjoint {α : Type} (p q : α → Bool)
    (h : ∀ a, p a = true → q a = false) (l : List α) :
    (l.filter p).length + (l.filter q).length ≤ l.length := by
  induction l with
  | nil => simp
  | cons a t ih =>
    by_cases hp : p a = true
    · have hq := h a hp
      rw [List.filter_cons_of_pos hp, List.filter_cons_of_neg (by simp [hq])]
      simp only [List.length_cons]
      omega
    · rw [List.filter_cons_of_neg hp]
      by_cases hq : q a = true
      · rw [List.filter_cons_of_pos hq]
        simp only [List.length_cons]
        omega
      · rw [List.filter_cons_of_neg hq]
        simp only [List.length_cons]
        omega

/-- The calendar date of a timestamp (`ts.date()`). -/
def DateTime.dateTriple (d : DateTime) : Nat × Nat × Nat := (d.year, d.month, d.day)

/-- `min` of a non-empty list of naive datetimes (`min(timestamps)`); the
`[]` case is unreachable behind the non-empty guard, where Python's
`min` would raise. -/
def minTimestamp : List DateTime → DateTime
  | [] => ⟨0, 0, 0, 0, 0, 0, 0, none⟩
  | t :: ts => ts.foldl (fun a b => if dtLe a b then a else b) t

/-- `max(timestamps)`, same conventions as `minTimestamp`. -/
def maxTimestamp : List DateTime → DateTime
  | [] => ⟨0, 0, 0, 0, 0, 0, 0, none⟩
  | t :: ts => ts.foldl (fun a b => if dtLe a b then b else a) t

/-- `[e for e in self.entries if e.level in ['ERROR', 'FATAL']]`. -/
def error_entries (entries : List LogEntry) : List LogEntry :=
  entries.filter (fun e => e.level == "ERROR" || e.level == "FATAL")

/-- `[e for e in self.entries if e.level == 'WARNING']`. -/
def warning_entries (entries : List LogEntry) : List LogEntry :=
  entries.filter (fun e => e.level == "WARNING")

/-- The statistics snapshot (`self.stats` when non-empty). -/
structure Stats where
  total_entries : Nat
  level_distribution : List (String × Nat)
  source_distribution : List (String × Nat)
  date_distribution : List ((Nat × Nat × Nat) × Nat)
  hourly_distribution : List (Nat × Nat)
  error_count : Nat
  warning_count : Nat
  error_rate : Rat
  warning_rate : Rat
  date_range_start : DateTime
  date_range_end : DateTime
  top_error_messages : List String
  top_warning_messages : List String
deriving Repr, DecidableEq

/-- The snapshot computed on a (non-empty) record set, field by field as
in `generate_statistics`; the rates divide by `len(self.entries)`. -/
def mkStats (entries : List LogEntry) : Stats :=
  { total_entries := entries.length
    level_distribution := countList (entries.map (fun e => e.level))
    source_distribution := countList (entries.map (fun e => e.source))
    date_distribution :=
      countList ((entries.map (fun e => e.timestamp)).map DateTime.dateTriple)
    hourly_distribution :=
      countList ((entries.map (fun e => e.timestamp)).map (fun t => t.hour))
    error_count := (error_entries entries).length
    warning_count := (warning_entries entries).length
    error_rate := ((error_entries entries).length : Rat) / (entries.length : Rat) * 100
    warning_rate :=
      ((warning_entries entries).length : Rat) / (entries.length : Rat) * 100
    date_range_start := minTimestamp (entries.map (fun e => e.timestamp))
    date_range_end := maxTimestamp (entries.map (fun e => e.timestamp))
    top_error_messages := ((error_entries entries).take 10).map (fun e => e.message)
    top_warning_messages :=
      ((warning_entries entries).take 10).map (fun e => e.message) }

/-- `LogAnalyzer.generate_statistics`: the empty record set yields the
empty snapshot `{}` (modelled `none`) before any rate is computed;
otherwise the full snapshot. -/
def generate_statistics (entries : List LogEntry) : Option Stats :=
  if entries.isEmpty then none else some (mkStats entries)

/-- C6: on a non-empty record set the snapshot's level counts sum to the
total entry count, and the error and warning counts together never
exceed it (an entry's level cannot be both in `['ERROR', 'FATAL']` and
equal to `'WARNING'`). -/
theorem C6_statistics_counts (entries : List LogEntry) (h : entries ≠ []) :
    generate_statistics entries = some (mkStats entries)
    ∧ ((mkStats entries).level_distribution.map Prod.snd).sum
        = (mkStats entries).total_entries
    ∧ (mkStats entries).error_count + (mkStats entries).warning_count
        ≤ (mkStats entries).total_entries := by
  refine ⟨?_, ?_, ?_⟩
  · simp [generate_statistics, h]
  · show ((countList (entries.map (fun e => e.level))).map Prod.snd).sum
      = entries.length
    unfold countList
    rw [List.map_map]
    have : (Prod.snd ∘ fun k => (k, (entries.map (fun e => e.level)).count k))
        = fun k => (entries.map (fun e => e.level)).count k := rfl
    rw [this, sum_dedupFirst_counts, List.length_map]
  · exact length_filter_disjoint _ _
      (fun e hp => by
        rcases Bool.or_eq_true_iff.mp hp with h1 | h1 <;>
          rw [eq_of_beq h1] <;> decide)
      entries

/-- A concrete error entry for the witnesses. -/
def entryErr : LogEntry :=
  mkLogEntry dtNow "ERROR" "Database connection failed" "" "raw" 1

/-- A concrete warning entry for the witnesses. -/
def entryWarn : LogEntry :=
  mkLogEntry dtNow "WARNING" "High memory usage detected" "" "raw" 2

/-- Witness for C6 on a concrete two-entry record set. -/
theorem C6_statistics_counts_witness :
    generate_statistics [entryErr, entryWarn] = some (mkStats [entryErr, entryWarn])
    ∧ ((mkStats [entryErr, entryWarn]).level_distribution.map Prod.snd).sum
        = (mkStats [entryErr, entryWarn]).total_entries
    ∧ (mkStats [entryErr, entryWarn]).error_count
        + (mkStats [entryErr, entryWarn]).warning_count
        ≤ (mkStats [entryErr, entryWarn]).total_entries :=
  C6_statistics_counts [entryErr, entryWarn] (by simp)

/-- C8: the empty record set produces the empty snapshot (no rate is
computed, so no division happens), and whenever a snapshot is produced
the rates' divisor `total_entries` is positive. -/
theorem C8_empty_statistics :
    generate_statistics ([] : List LogEntry) = none
    ∧ ∀ (entries : List LogEntry) (s : Stats),
        generate_statistics entries = some s → 0 < s.total_entries := by
  refine ⟨rfl, ?_⟩
  intro entries s hs
  unfold generate_statistics at hs
  by_cases h : entries.isEmpty = true
  · rw [if_pos h] at hs
    cases hs
  · rw [if_neg h] at hs
    cases hs
    show 0 < entries.length
    cases entries with
    | nil => simp at h
    | cons a t => simp

/-- Witness for C8's snapshot clause on a concrete one-entry set. -/
theorem C8_empty_statistics_witness : 0 < (mkStats [entryErr]).total_entries :=
  C8_empty_statistics.2 [entryErr] (mkStats [entryErr]) rfl

/-! ### `LogAnalyzer.load_file`

The analyzer's mutable attributes become an explicit state; a file is a
source that is missing (`os.path.exists` fails), unreadable (`open`
raises `PermissionError`) or a list of lines; a raised exception is an
`Except.error` carried next to the post-call state. -/

/-- `self.parser`, `self.entries` and `self.stats` of one `LogAnalyzer`. -/
structure AnalyzerState where
  entries : List LogEntry
  stats : Option Stats
deriving Repr, DecidableEq

/-- What the file system presents at the given path. -/
inductive FileSource where
  | missing : FileSource
  | unreadable : FileSource
  | readable : List String → FileSource

/-- The exceptions `load_file` can raise. -/
inductive LoadError where
  | fileNotFound : LoadError
  | permissionError : LoadError
deriving Repr, DecidableEq

/-- The read loop: `enumerate(file, 1)` feeding `parse_line`, keeping the
entries in file order. -/
def parseLines (now : DateTime) : Nat → List String → List LogEntry
  | _, [] => []
  | n, line :: rest =>
    match parse_line now line n with
    | some e => e :: parseLines now (n + 1) rest
    | none => parseLines now (n + 1) rest

/-- `LogAnalyzer.load_file`, state-passing: the existence check raises
before touching the state; `self.entries.clear()` runs next, *before*
`open`, so a `PermissionError` leaves the cleared list behind; a
successful pass fills the entries, recomputes the statistics and returns
`(total_lines, parsed_count)`. -/
def load_file (now : DateTime) (st : AnalyzerState) (src : FileSource) :
    AnalyzerState × Except LoadError (Nat × Nat) :=
  match src with
  | .missing => (st, .error .fileNotFound)
  | .unreadable => (⟨[], st.stats⟩, .error .permissionError)
  | .readable lines =>
    let es := parseLines now 1 lines
    (⟨es, generate_statistics es⟩, .ok (lines.length, es.length))

/-- A one-entry analyzer state for the C3 counterexample. -/
def st0 : AnalyzerState := ⟨[entryErr], generate_statistics [entryErr]⟩

/-- C3, counterexample: a load that fails on opening (permission denied)
does lose the previous record set — the entries were cleared before the
`open` call, so after the failed load the state holds the empty list,
not the one-entry set it held before. -/
theorem C3_counterexample :
    (load_file dtNow st0 .unreadable).2 = .error .permissionError
    ∧ (load_file dtNow st0 .unreadable).1.entries = []
    ∧ st0.entries ≠ [] := by
  refine ⟨rfl, rfl, ?_⟩
  intro h
  cases h

/-- C3, amended: only the up-front existence check is failure-atomic — a
missing file leaves the whole state untouched; a file that exists but
cannot be opened leaves the record set already cleared (empty, the
previous set lost) while the stale statistics survive. The record set
visible after a failure is thus never a partial mixture of old and new
entries, but it is not the previous set either. -/
theorem C3_load_failure_states (now : DateTime) (st : AnalyzerState) :
    load_file now st .missing = (st, .error .fileNotFound)
    ∧ load_file now st .unreadable = (⟨[], st.stats⟩, .error .permissionError) :=
  ⟨rfl, rfl⟩

/-! ### `LogAnalyzer.export_results` -/

/-- What one successful export writes to the output file, per format. -/
inductive ExportPayload where
  | json (export_time : DateTime) (entry_count : Nat) (statistics : Option Stats)
      (entries : List LogEntry) : ExportPayload
  | csv (header : List String)
      (rows : List (DateTime × String × String × String × Nat)) : ExportPayload
  | txt (generated : DateTime) (total : Nat) (lines : List LogEntry) : ExportPayload
deriving DecidableEq

/-- The CSV header row of the tabular export. -/
def csvHeader : List String :=
  ["Timestamp", "Level", "Source", "Message", "Line Number"]

/-- One CSV row: isoformat-ordered fields of the entry; the timestamp and
line number stay structured here, the encoding of a `datetime` or an
integer to text being orthogonal to every claim under check. -/
def entryCsvRow (e : LogEntry) : (DateTime × String × String × String × Nat) :=
  (e.timestamp, e.level, e.source, e.message, e.line_number)

/-- `LogAnalyzer.export_results`: the three recognized formats
(lower-cased selector) each write their payload inside the `try` block —
a write failure is caught and turned into `False`; an unrecognized
format falls through every `elif`, writes nothing and still returns
`True`. -/
def export_results (stats : Option Stats) (now : DateTime) (entries : List LogEntry)
    (writeOk : Bool) (format_type : String) : Option ExportPayload × Bool :=
  if sLower format_type = "json" then
    if writeOk then (some (.json now entries.length stats entries), true)
    else (none, false)
  else if sLower format_type = "csv" then
    if writeOk then (some (.csv csvHeader (entries.map entryCsvRow)), true)
    else (none, false)
  else if sLower format_type = "txt" then
    if writeOk then (some (.txt now entries.length entries), true)
    else (none, false)
  else (none, true)

/-- C9: a format selector whose lower-cased form is none of `json`,
`csv`, `txt` silently succeeds — `export_results` writes nothing and
returns `True` — for every record list, statistics value and output
state. -/
theorem C9_unknown_format_success (stats : Option Stats) (now : DateTime)
    (entries : List LogEntry) (writeOk : Bool) (format_type : String)
    (h1 : sLower format_type ≠ "json") (h2 : sLower format_type ≠ "csv")
    (h3 : sLower format_type ≠ "txt") :
    export_results stats now entries writeOk format_type = (none, true) := by
  unfold export_results
  rw [if_neg h1, if_neg h2, if_neg h3]

/-- Witness for C9 with the unknown selector `"xml"`. -/
theorem C9_unknown_format_success_witness :
    export_results none dtNow [entryErr] true "xml" = (none, true) :=
  C9_unknown_format_success none dtNow [entryErr] true "xml"
    (by decide) (by decide) (by decide)

end LogFileAnalyzer
